import Mathlib

/-!
Verification of the vvm-ble-to-signalk gateway core against its specification.

Byte strings are modelled as `List Nat` (one entry per byte, values 0–255 in
practice), integers as unbounded `Nat`/`Int`, Python floats appearing in unit
conversions as `ℚ` (every constant involved is decimal, so the rational model
is exact on the inputs the theorems evaluate), and Python exceptions as
`Except` values.  Each definition mirrors one function of the source tree.
-/

namespace VVM

/-- Python `int.from_bytes(bs)` with the default big-endian byte order. -/
def bigFromBytes (l : List Nat) : Nat :=
  l.foldl (fun acc b => acc * 256 + b) 0

/-- Python `int.from_bytes(bs, byteorder='little')`. -/
def leFromBytes (l : List Nat) : Nat :=
  l.foldr (fun b acc => b + 256 * acc) 0

/-- The `EngineParameterType` enum of `config_decoder.py` (values 0–15). -/
inductive EngineParameterType where
  | ENGINE_RPM
  | COOLANT_TEMPERATURE
  | BATTERY_VOLTAGE
  | UNKNOWN_3
  | ENGINE_RUNTIME
  | CURRENT_FUEL_FLOW
  | UNKNOWN_6
  | UNKNOWN_7
  | OIL_PRESSURE
  | UNKNOWN_9
  | UNKNOWN_A
  | UNKNOWN_B
  | UNKNOWN_C
  | UNKNOWN_D
  | UNKNOWN_E
  | UNKNOWN_F
  deriving DecidableEq, Repr, Inhabited

/-- Source `EngineParameterType(n)`: the enum constructor, which raises `ValueError`
(here `none`) when `n` is outside 0–15. -/
def EngineParameterType.fromValue : Nat → Option EngineParameterType
  | 0 => some .ENGINE_RPM
  | 1 => some .COOLANT_TEMPERATURE
  | 2 => some .BATTERY_VOLTAGE
  | 3 => some .UNKNOWN_3
  | 4 => some .ENGINE_RUNTIME
  | 5 => some .CURRENT_FUEL_FLOW
  | 6 => some .UNKNOWN_6
  | 7 => some .UNKNOWN_7
  | 8 => some .OIL_PRESSURE
  | 9 => some .UNKNOWN_9
  | 10 => some .UNKNOWN_A
  | 11 => some .UNKNOWN_B
  | 12 => some .UNKNOWN_C
  | 13 => some .UNKNOWN_D
  | 14 => some .UNKNOWN_E
  | 15 => some .UNKNOWN_F
  | _ => none

/-- The errors `ConfigDecoder.parse_params` can raise (all `ValueError` in the
source; `badParamType` is the one raised by the `EngineParameterType`
constructor inside the record loop). -/
inductive DecodeError where
  | noData
  | badMagic
  | lengthMismatch
  | truncated
  | badParamType
  deriving DecidableEq, Repr

/-- Source `EngineParameter` of `config_decoder.py`: the two raw fields plus the
values `__init__` derives from them. -/
structure EngineParameter where
  parameter_id : Nat
  notification_header : Nat
  enabled : Bool
  engine_id : Nat
  parameter_type : EngineParameterType
  deriving DecidableEq, Repr

/-- Source `EngineParameter.__init__(parameter, notification_header)`: derives
`enabled`, `engine_id` and `parameter_type`; constructing the enum value
raises (`.error .badParamType`) when `parameter & 0xFF` is not 0–15. -/
def mkEngineParameter (parameter notification_header : Nat) :
    Except DecodeError EngineParameter :=
  match EngineParameterType.fromValue (parameter &&& 0xFF) with
  | some t =>
      .ok { parameter_id := parameter
            notification_header := notification_header
            enabled := notification_header ≠ 0
            engine_id := parameter >>> 8
            parameter_type := t }
  | none => .error .badParamType

/-- State of a `ConfigDecoder` instance: the accumulated chunks, the tri-state
`__has_all_data` cache and the cached parameter list. -/
structure ConfigDecoder where
  known_data : List (List Nat)
  has_all_data : Option Bool
  parameters : List EngineParameter
  deriving DecidableEq, Repr

namespace ConfigDecoder

/-- Source `ConfigDecoder()`: fresh decoder. -/
def init : ConfigDecoder := ⟨[], none, []⟩

/-- Source `ConfigDecoder.add` applied to an iterable of chunks (`extend` branch);
always resets `__has_all_data` to `None`. -/
def add (d : ConfigDecoder) (chunks : List (List Nat)) : ConfigDecoder :=
  { d with known_data := d.known_data ++ chunks, has_all_data := none }

/-- Source `ConfigDecoder.pop_bytes`. -/
def pop_bytes (byte_array : List Nat) (num_bytes : Nat) :
    List Nat × List Nat :=
  (byte_array.take num_bytes, byte_array.drop num_bytes)

/-- The `while len(parsing_data) != 0` record loop of `parse_params`: pop 4
bytes, build an `EngineParameter` from the 2+2 big-endian fields (which may
raise), then raise "Incorrect data length" when 1–3 bytes remain. -/
def parseLoop : List Nat → Except DecodeError (List EngineParameter)
  | [] => .ok []
  | [b0] =>
    match mkEngineParameter (bigFromBytes [b0]) (bigFromBytes []) with
    | .error e => .error e
    | .ok p => .ok [p]
  | [b0, b1] =>
    match mkEngineParameter (bigFromBytes [b0, b1]) (bigFromBytes []) with
    | .error e => .error e
    | .ok p => .ok [p]
  | [b0, b1, b2] =>
    match mkEngineParameter (bigFromBytes [b0, b1]) (bigFromBytes [b2]) with
    | .error e => .error e
    | .ok p => .ok [p]
  | b0 :: b1 :: b2 :: b3 :: rest =>
    match mkEngineParameter (bigFromBytes [b0, b1]) (bigFromBytes [b2, b3]) with
    | .error e => .error e
    | .ok p =>
      if 0 < rest.length ∧ rest.length < 4 then
        .error .truncated
      else
        match parseLoop rest with
        | .ok ps => .ok (p :: ps)
        | .error e => .error e

/-- Source `ConfigDecoder.parse_params(combined_data)`: returns the updated decoder
state together with the parsed list or the raised error.  Note that the
length field is `int.from_bytes(combined_data[1:2], 'little')` — a one-byte
slice — and the byte at index 2 belongs to neither the length field nor the
counted payload `combined_data[3:]`. -/
def parse_params (d : ConfigDecoder) (combined_data : List Nat) :
    ConfigDecoder × Except DecodeError (List EngineParameter) :=
  if combined_data = [] then
    ({ d with has_all_data := none }, .error .noData)
  else if combined_data.headI ≠ 0x28 then
    ({ d with has_all_data := some false }, .error .badMagic)
  else
    let length_of_data := leFromBytes ((combined_data.drop 1).take 1)
    let actual_length := (combined_data.drop 3).length
    if actual_length ≠ length_of_data then
      ({ d with has_all_data := some false }, .error .lengthMismatch)
    else
      let parsing_data := (combined_data.drop 3).drop 2
      match parseLoop parsing_data with
      | .ok found_params =>
          ({ d with parameters := found_params, has_all_data := some true },
           .ok found_params)
      | .error e =>
          if e = .truncated then
            ({ d with has_all_data := some false }, .error e)
          else
            (d, .error e)

/-- Key used by `sorted(data, key=lambda x: x[0])`. -/
def chunkKey (c : List Nat) : Nat := c.headI

/-- Python `sorted(data, key=lambda x: x[0])` (Python's sort is stable; so is
`List.insertionSort`). -/
def sortChunks (data : List (List Nat)) : List (List Nat) :=
  List.insertionSort (fun a b => chunkKey a ≤ chunkKey b) data

/-- The chunk-combination step of `combine_and_parse_data`: sort by leading
byte, strip it from each chunk, concatenate. -/
def combinedData (d : ConfigDecoder) : List Nat :=
  ((sortChunks d.known_data).map (fun c => c.drop 1)).flatten

/-- Source `ConfigDecoder.combine_and_parse_data()`. -/
def combine_and_parse_data (d : ConfigDecoder) :
    ConfigDecoder × Except DecodeError (List EngineParameter) :=
  parse_params d (combinedData d)

/-- The `has_all_data` property: when the cache is `None`, run
`combine_and_parse_data` once, swallowing any `ValueError`, then report the
cache. -/
def has_all_data_get (d : ConfigDecoder) : ConfigDecoder × Option Bool :=
  match d.has_all_data with
  | none =>
      let d' := (combine_and_parse_data d).1
      (d', d'.has_all_data)
  | some b => (d, some b)

end ConfigDecoder

instance {e a : Type} [DecidableEq e] [DecidableEq a] : DecidableEq (Except e a) := fun x y =>
  match x, y with
  | .ok u, .ok v =>
    if h : u = v then .isTrue (by rw [h]) else .isFalse (fun c => h (Except.ok.inj c))
  | .error u, .error v =>
    if h : u = v then .isTrue (by rw [h]) else .isFalse (fun c => h (Except.error.inj c))
  | .ok _, .error _ => .isFalse (fun c => Except.noConfusion c)
  | .error _, .ok _ => .isFalse (fun c => Except.noConfusion c)

/-- The ten sample chunks of `test_config_decoder.py` (`test_simple`,
`test_out_of_order_data`); chunk `k` starts with sequence byte `k`.
The in-order concatenation of their payloads begins
`0x28 0xb6 0x00 0x01 0x00 ...`. -/
def fixtureChunks : List (List Nat) :=
  [ [0, 40, 182, 0, 1, 0, 0, 0, 1, 0, 0, 1, 210, 0, 0, 2, 232, 0, 0, 3],
    [1, 112, 23, 0, 4, 150, 0, 0, 5, 10, 0, 0, 6, 64, 31, 0, 7, 16, 39, 0],
    [2, 8, 181, 0, 0, 9, 212, 0, 0, 10, 182, 0, 0, 11, 251, 0, 0, 12, 0, 0],
    [3, 0, 13, 0, 0, 0, 14, 0, 0, 1, 0, 0, 0, 1, 1, 0, 0, 1, 2, 0],
    [4, 0, 1, 3, 0, 0, 1, 4, 0, 0, 1, 5, 0, 0, 1, 6, 0, 0, 1, 7],
    [5, 0, 0, 1, 8, 0, 0, 1, 9, 0, 0, 1, 10, 0, 0, 1, 11, 0, 0, 1],
    [6, 12, 0, 0, 1, 13, 0, 0, 1, 14, 0, 0, 2, 0, 0, 0, 2, 1, 0, 0],
    [7, 2, 2, 0, 0, 2, 3, 0, 0, 2, 4, 0, 0, 2, 5, 0, 0, 2, 6, 0],
    [8, 0, 2, 7, 0, 0, 2, 8, 0, 0, 2, 9, 0, 0, 2, 10, 0, 0, 2, 11],
    [9, 0, 0, 2, 12, 0, 0, 2, 13, 0, 0, 2, 14, 0, 0] ]

/-- Every complete 4-byte record of the given record area constructs an
`EngineParameter` successfully (its type nibble is 0–15); a trailing group of
fewer than 4 bytes is not checked, mirroring the fact that the record loop
raises on the 1–3 byte remainder before ever building a record from it. -/
def fullRecordTypesOk : List Nat → Bool
  | b0 :: b1 :: b2 :: b3 :: rest =>
    (match mkEngineParameter (bigFromBytes [b0, b1]) (bigFromBytes [b2, b3]) with
     | .ok _ => fullRecordTypesOk rest
     | .error _ => false)
  | _ => true

/-! ## Correlator (`futures_queue.py`)

A promise is modelled by a numeric identifier allocated from a counter; the
`__queue` dict is an association list keyed by the string key, and a promise's
resolution is recorded in `resolved`.  A promise is pending when some key maps
to it and no resolution has been recorded for it. -/

/-- State of a `FuturesQueue` instance. -/
structure FuturesQueue (α : Type) where
  queue : List (String × Nat)
  counter : Nat
  resolved : List (Nat × α)
  deriving DecidableEq, Repr

namespace FuturesQueue

/-- Source `FuturesQueue()`: fresh empty queue. -/
def init (α : Type) : FuturesQueue α := ⟨[], 0, []⟩

/-- Source `FuturesQueue.register(key)`: return the pending promise stored for
`key`, or create, store and return a brand-new one. -/
def register (q : FuturesQueue α) (key : String) : Nat × FuturesQueue α :=
  match q.queue.lookup key with
  | some fid => (fid, q)
  | none =>
      (q.counter,
       { q with queue := (key, q.counter) :: q.queue, counter := q.counter + 1 })

/-- Source `FuturesQueue.trigger(key, value)`: when a pending entry exists for
`key`, pop it, resolve the promise with `value` and return `True`; otherwise
return `False` without touching the state. -/
def trigger (q : FuturesQueue α) (key : String) (value : α) :
    Bool × FuturesQueue α :=
  match q.queue.lookup key with
  | some fid =>
      (true,
       { q with queue := q.queue.eraseP (fun e => e.1 == key),
                resolved := (fid, value) :: q.resolved })
  | none => (false, q)

/-- The value a promise was resolved with, if any. -/
def resolvedValue (q : FuturesQueue α) (fid : Nat) : Option α :=
  q.resolved.lookup fid

/-- A promise is pending when it is still stored under some key and has not
been resolved. -/
def isPending (q : FuturesQueue α) (fid : Nat) : Bool :=
  q.queue.any (fun e => e.2 == fid) && (q.resolved.lookup fid).isNone

/-- Well-formedness of a queue state: every stored or resolved promise was
allocated from the counter, and the dict has no duplicate keys. -/
def WF (q : FuturesQueue α) : Prop :=
  (∀ e ∈ q.queue, e.2 < q.counter) ∧
  (∀ e ∈ q.resolved, e.1 < q.counter) ∧
  (q.queue.map Prod.fst).Nodup

instance (q : FuturesQueue α) : Decidable (WF q) := by
  unfold WF; infer_instance

end FuturesQueue

/-! ## Dispatch map (`ble_connection.py`) -/

/-- Insertion into a Python dict modelled as an association list: an existing
binding of the key is overwritten in place, a new key is appended. -/
def pyDictInsert {β : Type} (m : List (Nat × β)) (k : Nat) (v : β) :
    List (Nat × β) :=
  match m with
  | [] => [(k, v)]
  | (k', v') :: rest =>
      if k' = k then (k, v) :: rest else (k', v') :: pyDictInsert rest k v

/-- Python `dict.get(k)`. -/
def pyDictGet {β : Type} (m : List (Nat × β)) (k : Nat) : Option β :=
  m.lookup k

/-- Source `BleDeviceConnection.update_engine_params`: the dispatch-map comprehension
`{ param.notification_header: param for param in engine_params }` (a dict
comprehension inserts in list order, so a later parameter overwrites an
earlier one with the same header; the `enabled` flag is never read). -/
def update_engine_params (engine_params : List EngineParameter) :
    List (Nat × EngineParameter) :=
  engine_params.foldl (fun m p => pyDictInsert m p.notification_header p) []

/-- The parameter `notification_handler` selects for an incoming payload:
`data_header = int.from_bytes(data[:2])` (big-endian) looked up in the
dispatch map — no condition on `enabled`. -/
def selectParam (m : List (Nat × EngineParameter)) (data : List Nat) :
    Option EngineParameter :=
  pyDictGet m (bigFromBytes (data.take 2))

/-- The parameter in `params` occurring last with the given header (the
binding a Python dict comprehension keeps). -/
def lastMatch (params : List EngineParameter) (h : Nat) :
    Option EngineParameter :=
  params.reverse.find? (fun p => p.notification_header == h)

/-! ## ConversionEngine (`conversion.py`)

Python floats are modelled as `ℚ`; every constant in the conversion table is
a decimal literal, so the model is exact on the inputs evaluated here. -/

/-- Python exceptions escaping the conversion lookup. -/
inductive PyError where
  | attributeError
  deriving DecidableEq, Repr

namespace Conversion

def rpm_to_hertz (rpm : ℚ) : ℚ := rpm / 60

def celsius_to_kelvin (celsius : ℚ) : ℚ := celsius + 273.15

def minutes_to_seconds (minutes : ℚ) : ℚ := minutes * 60

def cl_per_hour_to_m3_per_sec (cl_per_hour : ℚ) : ℚ := cl_per_hour * 2.77778e-9

def decapascals_to_pascals (value : ℚ) : ℚ := value * 10

def convert_pressure_to_pascals (value : ℚ) : ℚ := value / 1.25

def millivolts_to_volts (value : ℚ) : ℚ := value / 1000

def identity_function (value : ℚ) : ℚ := value

/-- Source `Conversion.conversion_for_parameter_type`.  The source's `match` tries
its value patterns in order; the case after `ENGINE_RUNTIME` is
`case EngineParameterType.OIL_PRESSURE | EngineParameterType.WATER_PRESSURE:`
and the enum in `config_decoder.py` defines no member `WATER_PRESSURE`, so
for every parameter type not matched earlier evaluating that second pattern
raises `AttributeError`.  The source's final `case _` branch returning
`identity_function` is therefore unreachable. -/
def conversion_for_parameter_type :
    EngineParameterType → Except PyError (ℚ → ℚ)
  | .BATTERY_VOLTAGE => .ok millivolts_to_volts
  | .COOLANT_TEMPERATURE => .ok celsius_to_kelvin
  | .CURRENT_FUEL_FLOW => .ok cl_per_hour_to_m3_per_sec
  | .ENGINE_RPM => .ok rpm_to_hertz
  | .ENGINE_RUNTIME => .ok minutes_to_seconds
  | .OIL_PRESSURE => .ok convert_pressure_to_pascals
  | _ => .error .attributeError

/-- Looking up the conversion for a type and applying it to a value, as both
call sites do. -/
def applyConversion (t : EngineParameterType) (v : ℚ) : Except PyError ℚ :=
  match conversion_for_parameter_type t with
  | .ok f => .ok (f v)
  | .error e => .error e

end Conversion

/-- Source `SignalKPublisher.convert_value(param, value)`: looks up the conversion
function and applies it.  Its `if conversion_func is None` guard is
unreachable — `conversion_for_parameter_type` either returns a function or
raises — so any `AttributeError` propagates. -/
def convert_value (param : EngineParameter) (value : ℚ) : Except PyError ℚ :=
  Conversion.applyConversion param.parameter_type value

/-- The conversion step of `BleDeviceConnection._convert_and_publish_data`:
`convert_func = Conversion.conversion_for_parameter_type(...)` then
`convert_func(decoded_value)`, with no exception handling. -/
def convertForPublish (engine_param : EngineParameter) (decoded_value : ℚ) :
    Except PyError ℚ :=
  Conversion.applyConversion engine_param.parameter_type decoded_value

/-! ## Formula evaluator (`Conversion.safe_eval_formula`)

The source builds the pattern
`^[0-9+\-*/.() \t\n]|(value|abs|min|max|round|pow|__builtins__)+$` and calls
`re.match` on it.  The alternation splits the whole pattern, so the string is
accepted exactly when its FIRST character lies in the bracketed class, or the
entire string is a non-empty concatenation of the allowed identifiers. -/

/-- The bracketed character class of the safety pattern. -/
def safeCharClass : List Char := "0123456789+-*/.() \t\n".data

/-- The identifiers interpolated into the safety pattern (every key of
`allowed_names` passes `isidentifier()`, including `__builtins__`). -/
def allowedIdentifiers : List (List Char) :=
  ["value".data, "abs".data, "min".data, "max".data, "round".data,
   "pow".data, "__builtins__".data]

/-- Pattern `(id1|id2|...)+$` matched at the start of `s`: `s` is a non-empty
concatenation of allowed identifiers.  The fuel argument bounds the
backtracking depth; every identifier is non-empty, so `s.length` steps
suffice. -/
def identSeqAux : Nat → List Char → Bool
  | 0, _ => false
  | fuel + 1, s =>
    allowedIdentifiers.any fun id =>
      !id.isEmpty && id.isPrefixOf s &&
        ((s.drop id.length).isEmpty || identSeqAux fuel (s.drop id.length))

/-- Whether `re.match(safe_pattern, formula)` succeeds. -/
def matchesSafePattern (s : List Char) : Bool :=
  (match s with
   | c :: _ => safeCharClass.contains c
   | [] => false)
  || identSeqAux s.length s

/-- Tokens of the arithmetic sub-language the override grammar allows. -/
inductive Tok where
  | num (q : ℚ)
  | ident (name : List Char)
  | plus
  | minus
  | star
  | slash
  | lparen
  | rparen
  deriving DecidableEq, Repr

/-- Decimal digits to a natural number. -/
def digitsToNat (l : List Char) : Nat :=
  l.foldl (fun acc c => acc * 10 + (c.toNat - '0'.toNat)) 0

/-- Lexer for the arithmetic sub-language: numbers (with an optional decimal
part), identifiers, the four operators and parentheses; whitespace skipped;
anything else fails.  Fuel is the remaining input length. -/
def lexAux : Nat → List Char → Option (List Tok)
  | _, [] => some []
  | 0, _ :: _ => none
  | fuel + 1, c :: cs =>
    if c = ' ' ∨ c = '\t' ∨ c = '\n' then lexAux fuel cs
    else if c = '+' then (lexAux fuel cs).map (Tok.plus :: ·)
    else if c = '-' then (lexAux fuel cs).map (Tok.minus :: ·)
    else if c = '*' then (lexAux fuel cs).map (Tok.star :: ·)
    else if c = '/' then (lexAux fuel cs).map (Tok.slash :: ·)
    else if c = '(' then (lexAux fuel cs).map (Tok.lparen :: ·)
    else if c = ')' then (lexAux fuel cs).map (Tok.rparen :: ·)
    else if c.isDigit then
      let ds := (c :: cs).takeWhile Char.isDigit
      let rest := (c :: cs).dropWhile Char.isDigit
      match rest with
      | '.' :: r2 =>
        let fs := r2.takeWhile Char.isDigit
        let r3 := r2.dropWhile Char.isDigit
        let q : ℚ := (digitsToNat ds : ℚ) + (digitsToNat fs : ℚ) / (10 ^ fs.length : ℚ)
        (lexAux fuel r3).map (Tok.num q :: ·)
      | _ => (lexAux fuel rest).map (Tok.num (digitsToNat ds) :: ·)
    else if c.isAlpha ∨ c = '_' then
      let ids := (c :: cs).takeWhile (fun x => x.isAlphanum || x = '_')
      let rest := (c :: cs).dropWhile (fun x => x.isAlphanum || x = '_')
      (lexAux fuel rest).map (Tok.ident ids :: ·)
    else none

mutual

/-- Rule `expr := term (('+'|'-') term)*`, evaluated over `ℚ`; `value` is the one
bound variable. -/
def evalExpr (value : ℚ) : Nat → List Tok → Option (ℚ × List Tok)
  | 0, _ => none
  | fuel + 1, ts =>
    match evalTerm value fuel ts with
    | some (v, rest) => evalExprLoop value fuel v rest
    | none => none

def evalExprLoop (value : ℚ) : Nat → ℚ → List Tok → Option (ℚ × List Tok)
  | 0, _, _ => none
  | fuel + 1, acc, ts =>
    match ts with
    | .plus :: r =>
      (match evalTerm value fuel r with
       | some (v, rest) => evalExprLoop value fuel (acc + v) rest
       | none => none)
    | .minus :: r =>
      (match evalTerm value fuel r with
       | some (v, rest) => evalExprLoop value fuel (acc - v) rest
       | none => none)
    | _ => some (acc, ts)

/-- Rule `term := factor (('*'|'/') factor)*`; division by zero fails (the
`ZeroDivisionError` the source catches). -/
def evalTerm (value : ℚ) : Nat → List Tok → Option (ℚ × List Tok)
  | 0, _ => none
  | fuel + 1, ts =>
    match evalFactor value fuel ts with
    | some (v, rest) => evalTermLoop value fuel v rest
    | none => none

def evalTermLoop (value : ℚ) : Nat → ℚ → List Tok → Option (ℚ × List Tok)
  | 0, _, _ => none
  | fuel + 1, acc, ts =>
    match ts with
    | .star :: r =>
      (match evalFactor value fuel r with
       | some (v, rest) => evalTermLoop value fuel (acc * v) rest
       | none => none)
    | .slash :: r =>
      (match evalFactor value fuel r with
       | some (v, rest) =>
         if v = 0 then none else evalTermLoop value fuel (acc / v) rest
       | none => none)
    | _ => some (acc, ts)

/-- Rule `factor := number | value | ('+'|'-') factor | '(' expr ')'`. -/
def evalFactor (value : ℚ) : Nat → List Tok → Option (ℚ × List Tok)
  | 0, _ => none
  | fuel + 1, ts =>
    match ts with
    | .num q :: r => some (q, r)
    | .ident name :: r =>
      if name = "value".data then some (value, r) else none
    | .minus :: r =>
      (match evalFactor value fuel r with
       | some (v, rest) => some (-v, rest)
       | none => none)
    | .plus :: r => evalFactor value fuel r
    | .lparen :: r =>
      (match evalExpr value fuel r with
       | some (v, .rparen :: rest) => some (v, rest)
       | _ => none)
    | _ => none

end

/-- Modelled from the spec: Python's `eval`, restricted to the override
grammar the spec defines — numeric literals, the single bound variable
`value`, the operators `+ - * / ( )` and unary sign — evaluated over `ℚ`.
`eval` itself is library code outside this repository; any failure (parse
error, unknown name, division by zero, leftover input; the allow-listed
function calls are not exercised by any claim) yields `none`, mirroring the
exceptions the caller catches. -/
def pyEvalArith (s : List Char) (value : ℚ) : Option ℚ :=
  match lexAux s.length s with
  | none => none
  | some ts =>
    match evalExpr value (4 * ts.length + 4) ts with
    | some (v, []) => some v
    | _ => none

/-- Source `Conversion.safe_eval_formula(formula, value)`: `None` passes the value
through; a formula failing the safety pattern, or whose evaluation raises,
yields the value unchanged; otherwise the evaluated result. -/
def safe_eval_formula (formula : Option String) (value : ℚ) : ℚ :=
  match formula with
  | none => value
  | some f =>
    if matchesSafePattern f.data then
      match pyEvalArith f.data value with
      | some result => result
      | none => value
    else value

instance : IsTotal (List Nat) (fun a b => ConfigDecoder.chunkKey a ≤ ConfigDecoder.chunkKey b) :=
  ⟨fun a b => Nat.le_total (ConfigDecoder.chunkKey a) (ConfigDecoder.chunkKey b)⟩

instance : IsTrans (List Nat) (fun a b => ConfigDecoder.chunkKey a ≤ ConfigDecoder.chunkKey b) :=
  ⟨fun _ _ _ h1 h2 => Nat.le_trans h1 h2⟩

instance : IsAntisymm (List Nat) (fun a b => ConfigDecoder.chunkKey a < ConfigDecoder.chunkKey b) :=
  ⟨fun _ _ h1 h2 => absurd h1 (Nat.lt_asymm h2)⟩

/-! ## Helper lemmas -/

/-- A chain of non-strict key comparisons is strict when the keys are
pairwise distinct. -/
theorem pairwise_key_lt_of_le
    (l : List (List Nat))
    (hle : l.Pairwise (fun a b => ConfigDecoder.chunkKey a ≤ ConfigDecoder.chunkKey b))
    (hnd : (l.map ConfigDecoder.chunkKey).Nodup) :
    l.Pairwise (fun a b => ConfigDecoder.chunkKey a < ConfigDecoder.chunkKey b) := by
  induction l with
  | nil => exact List.Pairwise.nil
  | cons x xs ih =>
    rw [List.pairwise_cons] at hle ⊢
    rw [List.map_cons, List.nodup_cons] at hnd
    refine ⟨?_, ih hle.2 hnd.2⟩
    intro b hb
    rcases Nat.lt_or_ge (ConfigDecoder.chunkKey x) (ConfigDecoder.chunkKey b) with h | h
    · exact h
    · exact absurd ((Nat.le_antisymm (hle.1 b hb) h) ▸ List.mem_map_of_mem ConfigDecoder.chunkKey hb)
        hnd.1

/-- Stable sort by leading byte is a function of the chunk multiset when the
leading bytes are pairwise distinct. -/
theorem sortChunks_eq_of_perm (l₁ l₂ : List (List Nat)) (hp : l₁.Perm l₂)
    (hnd : (l₁.map ConfigDecoder.chunkKey).Nodup) :
    ConfigDecoder.sortChunks l₁ = ConfigDecoder.sortChunks l₂ := by
  have p1 := List.perm_insertionSort
    (fun a b => ConfigDecoder.chunkKey a ≤ ConfigDecoder.chunkKey b) l₁
  have p2 := List.perm_insertionSort
    (fun a b => ConfigDecoder.chunkKey a ≤ ConfigDecoder.chunkKey b) l₂
  have hperm : (ConfigDecoder.sortChunks l₁).Perm (ConfigDecoder.sortChunks l₂) :=
    p1.trans (hp.trans p2.symm)
  have hs1 := List.sorted_insertionSort
    (fun a b => ConfigDecoder.chunkKey a ≤ ConfigDecoder.chunkKey b) l₁
  have hs2 := List.sorted_insertionSort
    (fun a b => ConfigDecoder.chunkKey a ≤ ConfigDecoder.chunkKey b) l₂
  have hnd1 : ((ConfigDecoder.sortChunks l₁).map ConfigDecoder.chunkKey).Nodup :=
    ((p1.map ConfigDecoder.chunkKey).nodup_iff).mpr hnd
  have hnd2 : ((ConfigDecoder.sortChunks l₂).map ConfigDecoder.chunkKey).Nodup :=
    ((p2.map ConfigDecoder.chunkKey).nodup_iff).mpr
      (((hp.map ConfigDecoder.chunkKey).nodup_iff).mp hnd)
  exact List.eq_of_perm_of_sorted hperm
    (pairwise_key_lt_of_le _ hs1 hnd1) (pairwise_key_lt_of_le _ hs2 hnd2)

/-- The value/raised-error component of `parse_params` does not depend on the
incoming decoder state. -/
theorem parse_params_snd_ext (d d' : ConfigDecoder) (buf : List Nat) :
    (ConfigDecoder.parse_params d buf).2 = (ConfigDecoder.parse_params d' buf).2 := by
  unfold ConfigDecoder.parse_params
  dsimp only
  split_ifs
  all_goals try rfl
  all_goals cases hc : ConfigDecoder.parseLoop (List.drop 2 (List.drop 3 buf))
  all_goals simp only [hc]
  all_goals try rfl
  all_goals split_ifs
  all_goals rfl

/-- The `has_all_data` component written by `parse_params` does not depend on
the incoming decoder state except through the error branch that leaves it
unchanged, which only occurs for the record-constructor error. -/
theorem parse_params_fst_has_ext (d d' : ConfigDecoder) (buf : List Nat)
    (hd : d.has_all_data = d'.has_all_data) :
    (ConfigDecoder.parse_params d buf).1.has_all_data =
    (ConfigDecoder.parse_params d' buf).1.has_all_data := by
  unfold ConfigDecoder.parse_params
  dsimp only
  split_ifs
  all_goals try rfl
  all_goals cases hc : ConfigDecoder.parseLoop (List.drop 2 (List.drop 3 buf))
  all_goals simp only [hc]
  all_goals try rfl
  all_goals split_ifs
  all_goals simpa using hd

/-- Source `EngineParameter.__init__` can only raise the enum's `ValueError`. -/
theorem mkEngineParameter_error (p h : Nat) (e : DecodeError)
    (hc : mkEngineParameter p h = .error e) : e = .badParamType := by
  unfold mkEngineParameter at hc
  cases hv : EngineParameterType.fromValue (p &&& 0xFF) with
  | some t => rw [hv] at hc; exact Except.noConfusion hc
  | none => rw [hv] at hc; exact (Except.error.inj hc).symm

/-- The record loop raises only the truncation error or the enum error,
never the length-mismatch error. -/
theorem parseLoop_error_cases (l : List Nat) (e : DecodeError)
    (hc : ConfigDecoder.parseLoop l = .error e) :
    e = .truncated ∨ e = .badParamType := by
  induction l using ConfigDecoder.parseLoop.induct with
  | case1 => exact Except.noConfusion hc
  | case2 b0 e' hmk =>
    simp only [ConfigDecoder.parseLoop, hmk] at hc
    exact Or.inr ((Except.error.inj hc) ▸ mkEngineParameter_error _ _ _ hmk)
  | case3 b0 p hmk =>
    simp only [ConfigDecoder.parseLoop, hmk] at hc
    exact Except.noConfusion hc
  | case4 b0 b1 e' hmk =>
    simp only [ConfigDecoder.parseLoop, hmk] at hc
    exact Or.inr ((Except.error.inj hc) ▸ mkEngineParameter_error _ _ _ hmk)
  | case5 b0 b1 p hmk =>
    simp only [ConfigDecoder.parseLoop, hmk] at hc
    exact Except.noConfusion hc
  | case6 b0 b1 b2 e' hmk =>
    simp only [ConfigDecoder.parseLoop, hmk] at hc
    exact Or.inr ((Except.error.inj hc) ▸ mkEngineParameter_error _ _ _ hmk)
  | case7 b0 b1 b2 p hmk =>
    simp only [ConfigDecoder.parseLoop, hmk] at hc
    exact Except.noConfusion hc
  | case8 b0 b1 b2 b3 rest e' hmk =>
    simp only [ConfigDecoder.parseLoop, hmk] at hc
    exact Or.inr ((Except.error.inj hc) ▸ mkEngineParameter_error _ _ _ hmk)
  | case9 b0 b1 b2 b3 rest p hmk hrem =>
    simp only [ConfigDecoder.parseLoop, hmk, if_pos hrem] at hc
    exact Or.inl (Except.error.inj hc).symm
  | case10 b0 b1 b2 b3 rest p hmk hrem ps hrec ih =>
    simp only [ConfigDecoder.parseLoop, hmk, if_neg hrem, hrec] at hc
    exact Except.noConfusion hc
  | case11 b0 b1 b2 b3 rest p hmk hrem e' hrec ih =>
    simp only [ConfigDecoder.parseLoop, hmk, if_neg hrem, hrec] at hc
    exact ih ((Except.error.inj hc) ▸ hrec)

/-- When every complete record is constructible, the record area is not a
multiple of four bytes long, and it extends past one record, the loop raises
the truncation error. -/
theorem parseLoop_truncated (l : List Nat)
    (htypes : fullRecordTypesOk l = true)
    (hmod : l.length % 4 ≠ 0) (hbig : 4 < l.length) :
    ConfigDecoder.parseLoop l = .error .truncated := by
  induction l using ConfigDecoder.parseLoop.induct with
  | case1 => simp at hbig
  | case2 b0 e' hmk => simp at hbig
  | case3 b0 p hmk => simp at hbig
  | case4 b0 b1 e' hmk => simp at hbig
  | case5 b0 b1 p hmk => simp at hbig
  | case6 b0 b1 b2 e' hmk => simp at hbig
  | case7 b0 b1 b2 p hmk => simp at hbig
  | case8 b0 b1 b2 b3 rest e' hmk =>
    simp only [fullRecordTypesOk, hmk] at htypes
    exact Bool.noConfusion htypes
  | case9 b0 b1 b2 b3 rest p hmk hrem =>
    simp only [ConfigDecoder.parseLoop, hmk, if_pos hrem]
  | case10 b0 b1 b2 b3 rest p hmk hrem ps hrec ih =>
    exfalso
    simp only [fullRecordTypesOk, hmk] at htypes
    have hmod' : rest.length % 4 ≠ 0 := by
      simp only [List.length_cons] at hmod; omega
    have hbig' : 4 < rest.length := by
      simp only [List.length_cons] at hmod; omega
    have ht := ih htypes hmod' hbig'
    rw [ht] at hrec
    exact Except.noConfusion hrec
  | case11 b0 b1 b2 b3 rest p hmk hrem e' hrec ih =>
    simp only [fullRecordTypesOk, hmk] at htypes
    have hmod' : rest.length % 4 ≠ 0 := by
      simp only [List.length_cons] at hmod; omega
    have hbig' : 4 < rest.length := by
      simp only [List.length_cons] at hmod; omega
    have ht := ih htypes hmod' hbig'
    rw [hrec] at ht
    simp only [ConfigDecoder.parseLoop, hmk, if_neg hrem, hrec]
    exact ht

/-! ## Claim theorems -/

/-- C9: `combine_and_parse_data` on a decoder with no accumulated chunks
raises a `ValueError` ("No data to parse."), and afterwards `has_all_data`
is unknown (`None`) — not `False` as for the bad-magic and length-mismatch
failures. -/
theorem empty_decoder_error_state_unknown :
    (ConfigDecoder.combine_and_parse_data ConfigDecoder.init).2 =
      .error .noData ∧
    (ConfigDecoder.combine_and_parse_data ConfigDecoder.init).1.has_all_data = none ∧
    (ConfigDecoder.has_all_data_get ConfigDecoder.init).2 = none := by
  decide

/-- C3 counterexample: the combined buffer `28 02 01 aa bb` is non-empty,
starts with the magic `0x28`, and the 16-bit little-endian integer at bytes
1–2 (`0x0102 = 258`) differs from the 2 bytes remaining after byte 3 — yet
`parse_params` does not raise the length-mismatch error (it succeeds),
because the source reads the length from the one-byte slice
`combined_data[1:2]`, which here equals 2. -/
theorem length_field_16bit_counterexample :
    ([0x28, 0x02, 0x01, 0xAA, 0xBB] : List Nat) ≠ [] ∧
    ([0x28, 0x02, 0x01, 0xAA, 0xBB] : List Nat).headI = 0x28 ∧
    leFromBytes (([0x28, 0x02, 0x01, 0xAA, 0xBB] : List Nat).drop 1 |>.take 2) ≠
      (([0x28, 0x02, 0x01, 0xAA, 0xBB] : List Nat).drop 3).length ∧
    (ConfigDecoder.parse_params ConfigDecoder.init [0x28, 0x02, 0x01, 0xAA, 0xBB]).2 ≠
      .error .lengthMismatch ∧
    (ConfigDecoder.parse_params ConfigDecoder.init [0x28, 0x02, 0x01, 0xAA, 0xBB]).2 =
      .ok [] := by
  decide

/-- C3 (amended): for every non-empty combined buffer whose first byte is
`0x28`, `parse_params` raises the length-mismatch error exactly when the
single byte at index 1 (the little-endian value of the one-byte slice
`[1:2]`) differs from the count of bytes from byte 3 onward — byte 2 is not
part of the length field — and in that failure case the cached state becomes
invalid (`False`). -/
theorem length_field_mismatch_iff (d : ConfigDecoder) (buf : List Nat)
    (hne : buf ≠ []) (hmagic : buf.headI = 0x28) :
    ((ConfigDecoder.parse_params d buf).2 = .error .lengthMismatch ↔
      (buf.drop 3).length ≠ leFromBytes ((buf.drop 1).take 1)) ∧
    ((buf.drop 3).length ≠ leFromBytes ((buf.drop 1).take 1) →
      (ConfigDecoder.parse_params d buf).1.has_all_data = some false) := by
  unfold ConfigDecoder.parse_params
  rw [if_neg hne, if_neg (by simp [hmagic])]
  dsimp only
  by_cases h : (buf.drop 3).length ≠ leFromBytes ((buf.drop 1).take 1)
  · rw [if_pos h]
    exact ⟨⟨fun _ => h, fun _ => rfl⟩, fun _ => rfl⟩
  · rw [if_neg h]
    refine ⟨?_, fun hx => absurd hx h⟩
    cases hc : ConfigDecoder.parseLoop (List.drop 2 (List.drop 3 buf)) with
    | ok ps =>
      simp only [hc]
      exact ⟨fun hx => Except.noConfusion hx, fun hx => absurd hx h⟩
    | error e =>
      simp only [hc]
      constructor
      · intro hx
        exfalso
        rcases parseLoop_error_cases _ _ hc with he | he <;>
          (split_ifs at hx <;> cases he ▸ Except.error.inj hx <;> simp_all)
      · intro hx
        exact absurd hx h

/-- C3 witness: the theorem applied to the buffer `28 05 00` (declared
length 5, no payload), a genuine length mismatch. -/
theorem length_field_mismatch_iff_witness :
    ((ConfigDecoder.parse_params ConfigDecoder.init [0x28, 0x05, 0x00]).2 =
        .error .lengthMismatch ↔
      (([0x28, 0x05, 0x00] : List Nat).drop 3).length ≠
        leFromBytes ((([0x28, 0x05, 0x00] : List Nat).drop 1).take 1)) ∧
    ((([0x28, 0x05, 0x00] : List Nat).drop 3).length ≠
        leFromBytes ((([0x28, 0x05, 0x00] : List Nat).drop 1).take 1) →
      (ConfigDecoder.parse_params ConfigDecoder.init [0x28, 0x05, 0x00]).1.has_all_data =
        some false) :=
  length_field_mismatch_iff ConfigDecoder.init [0x28, 0x05, 0x00]
    (by decide) (by decide)

/-- C8 counterexample: the combined buffer `28 05 00 01 00 00 00 00` passes
the magic and length checks and its record area after the 2-byte marker is
`00 00 00` — 3 bytes, not a multiple of 4 — yet `parse_params` succeeds,
producing one (short-read) descriptor and a valid state, instead of failing
with a `DecodeError`. -/
theorem truncated_short_area_counterexample :
    ((([0x28, 0x05, 0x00, 0x01, 0x00, 0x00, 0x00, 0x00] : List Nat).drop 5).length % 4 = 3) ∧
    (ConfigDecoder.parse_params ConfigDecoder.init
        [0x28, 0x05, 0x00, 0x01, 0x00, 0x00, 0x00, 0x00]).2 =
      .ok [{ parameter_id := 0, notification_header := 0, enabled := false,
             engine_id := 0, parameter_type := .ENGINE_RPM }] ∧
    (ConfigDecoder.parse_params ConfigDecoder.init
        [0x28, 0x05, 0x00, 0x01, 0x00, 0x00, 0x00, 0x00]).1.has_all_data = some true := by
  decide

/-- C8 (amended): for every combined buffer that passes the magic and length
checks, whose record area (bytes from index 5 on) is longer than one record
and not a multiple of 4 bytes, and whose complete records all construct
successfully, `parse_params` fails with the truncated-record `DecodeError`,
the cached state becomes invalid (`False`), and the stored descriptor list
is left unchanged.  (A record area of only 1–3 bytes is instead consumed as
a single short record and parses successfully — see the counterexample.) -/
theorem truncated_record_error (d : ConfigDecoder) (buf : List Nat)
    (hne : buf ≠ []) (hmagic : buf.headI = 0x28)
    (hlen : (buf.drop 3).length = leFromBytes ((buf.drop 1).take 1))
    (hmod : (buf.drop 5).length % 4 ≠ 0)
    (hbig : 4 < (buf.drop 5).length)
    (htypes : fullRecordTypesOk (buf.drop 5) = true) :
    (ConfigDecoder.parse_params d buf).2 = .error .truncated ∧
    (ConfigDecoder.parse_params d buf).1.has_all_data = some false ∧
    (ConfigDecoder.parse_params d buf).1.parameters = d.parameters := by
  have hdrop : List.drop 2 (List.drop 3 buf) = buf.drop 5 := by
    rw [List.drop_drop]
  unfold ConfigDecoder.parse_params
  rw [if_neg hne, if_neg (by simp [hmagic])]
  dsimp only
  rw [if_neg (by simpa using hlen), hdrop,
    parseLoop_truncated (buf.drop 5) htypes hmod hbig]
  exact ⟨rfl, rfl, rfl⟩

/-- C8 witness: the theorem applied to the buffer
`28 07 00 01 00 00 00 00 00 09`, whose record area `00 00 00 00 09` holds one
full record plus a 1-byte remainder. -/
theorem truncated_record_error_witness :
    (ConfigDecoder.parse_params ConfigDecoder.init
        [0x28, 0x07, 0x00, 0x01, 0x00, 0x00, 0x00, 0x00, 0x00, 0x09]).2 =
      .error .truncated ∧
    (ConfigDecoder.parse_params ConfigDecoder.init
        [0x28, 0x07, 0x00, 0x01, 0x00, 0x00, 0x00, 0x00, 0x00, 0x09]).1.has_all_data =
      some false ∧
    (ConfigDecoder.parse_params ConfigDecoder.init
        [0x28, 0x07, 0x00, 0x01, 0x00, 0x00, 0x00, 0x00, 0x00, 0x09]).1.parameters =
      ConfigDecoder.init.parameters :=
  truncated_record_error ConfigDecoder.init
    [0x28, 0x07, 0x00, 0x01, 0x00, 0x00, 0x00, 0x00, 0x00, 0x09]
    (by decide) (by decide) (by decide) (by decide) (by decide) (by decide)

/-- C2: delivering the same set of valid chunks (all non-empty, pairwise
distinct leading sequence bytes) to a fresh decoder in any permutation of
delivery order yields the same `combine_and_parse_data` outcome — the same
descriptor list in the same order, or the same error. -/
theorem combineAndParse_order_independent
    (l₁ l₂ : List (List Nat)) (hp : l₁.Perm l₂)
    (hne : ∀ c ∈ l₁, c ≠ [])
    (hnd : (l₁.map ConfigDecoder.chunkKey).Nodup) :
    (ConfigDecoder.combine_and_parse_data (ConfigDecoder.init.add l₁)).2 =
    (ConfigDecoder.combine_and_parse_data (ConfigDecoder.init.add l₂)).2 := by
  have hsort := sortChunks_eq_of_perm l₁ l₂ hp hnd
  unfold ConfigDecoder.combine_and_parse_data ConfigDecoder.combinedData
  simp only [ConfigDecoder.add, ConfigDecoder.init, List.nil_append, hsort]
  exact parse_params_snd_ext _ _ _

/-- C2 witness: two permutations of a two-chunk set decode identically. -/
theorem combineAndParse_order_independent_witness :
    ([[0, 1, 2], [1, 3, 4]] : List (List Nat)).Perm [[1, 3, 4], [0, 1, 2]] ∧
    (∀ c ∈ ([[0, 1, 2], [1, 3, 4]] : List (List Nat)), c ≠ []) ∧
    (([[0, 1, 2], [1, 3, 4]] : List (List Nat)).map ConfigDecoder.chunkKey).Nodup ∧
    (ConfigDecoder.combine_and_parse_data
        (ConfigDecoder.init.add [[0, 1, 2], [1, 3, 4]])).2 =
      (ConfigDecoder.combine_and_parse_data
        (ConfigDecoder.init.add [[1, 3, 4], [0, 1, 2]])).2 :=
  ⟨by decide, by decide, by decide,
    combineAndParse_order_independent [[0, 1, 2], [1, 3, 4]] [[1, 3, 4], [0, 1, 2]]
      (by decide) (by decide) (by decide)⟩

/-- C4 counterexample: the ten documented fixture chunks decode successfully,
but to 45 `EngineParameter` records, not 29 — the combined payload declares
182 bytes, i.e. a 2-byte marker plus 45 four-byte records. -/
theorem fixture_decodes_to_45_not_29 :
    ((ConfigDecoder.combine_and_parse_data
        (ConfigDecoder.init.add fixtureChunks)).2.toOption.map List.length) = some 45 ∧
    (45 : Nat) ≠ 29 := by
  constructor
  · set_option maxRecDepth 40000 in decide
  · decide

/-- C4 (amended): adding the ten documented fixture chunks in any delivery
order and parsing succeeds, yields exactly 45 descriptors, and leaves
`has_all_data` true. -/
theorem fixture_any_order_decodes (l : List (List Nat))
    (hp : l.Perm fixtureChunks) :
    ((ConfigDecoder.combine_and_parse_data
        (ConfigDecoder.init.add l)).2.toOption.map List.length) = some 45 ∧
    (ConfigDecoder.combine_and_parse_data
        (ConfigDecoder.init.add l)).1.has_all_data = some true := by
  have hnd : (l.map ConfigDecoder.chunkKey).Nodup :=
    ((hp.map ConfigDecoder.chunkKey).nodup_iff).mpr (by decide)
  have hsnd :
      (ConfigDecoder.combine_and_parse_data (ConfigDecoder.init.add l)).2 =
      (ConfigDecoder.combine_and_parse_data (ConfigDecoder.init.add fixtureChunks)).2 := by
    have hsort := sortChunks_eq_of_perm l fixtureChunks hp hnd
    unfold ConfigDecoder.combine_and_parse_data ConfigDecoder.combinedData
    simp only [ConfigDecoder.add, ConfigDecoder.init, List.nil_append, hsort]
    exact parse_params_snd_ext _ _ _
  have hfst :
      (ConfigDecoder.combine_and_parse_data (ConfigDecoder.init.add l)).1.has_all_data =
      (ConfigDecoder.combine_and_parse_data (ConfigDecoder.init.add fixtureChunks)).1.has_all_data := by
    have hsort := sortChunks_eq_of_perm l fixtureChunks hp hnd
    unfold ConfigDecoder.combine_and_parse_data ConfigDecoder.combinedData
    simp only [ConfigDecoder.add, ConfigDecoder.init, List.nil_append, hsort]
    exact parse_params_fst_has_ext _ _ _ rfl
  rw [hsnd, hfst]
  constructor
  · set_option maxRecDepth 40000 in decide
  · set_option maxRecDepth 40000 in decide

/-- C4 witness: the amended theorem applied to the in-order delivery. -/
theorem fixture_any_order_decodes_witness :
    ((ConfigDecoder.combine_and_parse_data
        (ConfigDecoder.init.add fixtureChunks)).2.toOption.map List.length) = some 45 ∧
    (ConfigDecoder.combine_and_parse_data
        (ConfigDecoder.init.add fixtureChunks)).1.has_all_data = some true :=
  fixture_any_order_decodes fixtureChunks (List.Perm.refl fixtureChunks)

/-- Association-list lookup misses every binding whose key is below a bound
the query meets. -/
theorem lookup_none_of_lt {β : Type} (l : List (Nat × β)) (n m : Nat)
    (h : ∀ e ∈ l, e.1 < n) (hm : n ≤ m) : l.lookup m = none := by
  induction l with
  | nil => rfl
  | cons a t ih =>
    obtain ⟨k, b⟩ := a
    have ha := h (k, b) (List.mem_cons_self _ _)
    have hne : (m == k) = false := by
      simp only [beq_eq_false_iff_ne, ne_eq]
      omega
    simp only [List.lookup, hne]
    exact ih (fun e he => h e (List.mem_cons_of_mem _ he))

/-- Association-list lookup misses a key that labels no binding. -/
theorem lookup_none_of_not_mem_keys {κ β : Type} [BEq κ] [LawfulBEq κ]
    (l : List (κ × β)) (k : κ) (h : k ∉ l.map Prod.fst) : l.lookup k = none := by
  induction l with
  | nil => rfl
  | cons a t ih =>
    obtain ⟨k', b⟩ := a
    rw [List.map_cons, List.mem_cons] at h
    push_neg at h
    have hne : (k == k') = false := by
      simp only [beq_eq_false_iff_ne, ne_eq]
      exact h.1
    simp only [List.lookup, hne]
    exact ih h.2

/-- A successful association-list lookup exhibits a member. -/
theorem lookup_some_mem {κ β : Type} [BEq κ] [LawfulBEq κ]
    (l : List (κ × β)) (k : κ) (b : β) (h : l.lookup k = some b) : (k, b) ∈ l := by
  induction l with
  | nil => exact Option.noConfusion h
  | cons a t ih =>
    obtain ⟨k', v⟩ := a
    by_cases hk : k = k'
    · subst hk
      simp only [List.lookup, beq_self_eq_true] at h
      exact (Option.some.inj h) ▸ List.mem_cons_self _ _
    · have hne : (k == k') = false := by
        simp only [beq_eq_false_iff_ne, ne_eq]
        exact hk
      simp only [List.lookup, hne] at h
      exact List.mem_cons_of_mem _ (ih h)

/-- Popping the dict entry for a key (when the keys are duplicate-free)
leaves no binding for that key. -/
theorem lookup_eraseP_self (l : List (String × Nat)) (k : String)
    (hnd : (l.map Prod.fst).Nodup) :
    (l.eraseP (fun e => e.1 == k)).lookup k = none := by
  induction l with
  | nil => rfl
  | cons a t ih =>
    obtain ⟨a1, a2⟩ := a
    rw [List.map_cons, List.nodup_cons] at hnd
    by_cases hak : a1 = k
    · subst hak
      simp only [List.eraseP_cons, beq_self_eq_true, cond_true]
      exact lookup_none_of_not_mem_keys t a1 hnd.1
    · have hne : (a1 == k) = false := by
        simp only [beq_eq_false_iff_ne, ne_eq]
        exact hak
      have hne' : (k == a1) = false := by
        simp only [beq_eq_false_iff_ne, ne_eq]
        exact fun c => hak c.symm
      simp only [List.eraseP_cons, hne, cond_false, List.lookup, hne']
      exact ih hnd.2

/-- C1: on any well-formed correlator state, `register(k)` followed by
`trigger(k, v)` resolves the registered promise to `v` with `trigger`
returning `True`; a subsequent `register(k)` returns a fresh, still-pending
promise distinct from the first; and `trigger` on a key with no pending
entry returns `False` and leaves the state untouched. -/
theorem correlator_register_trigger_contract {α : Type} (q : FuturesQueue α)
    (k k' : String) (v : α) (hWF : FuturesQueue.WF q)
    (hk' : q.queue.lookup k' = none) :
    ((q.register k).2.trigger k v).1 = true ∧
    FuturesQueue.resolvedValue (((q.register k).2.trigger k v).2)
      (q.register k).1 = some v ∧
    ((((q.register k).2.trigger k v).2).register k).1 ≠ (q.register k).1 ∧
    FuturesQueue.isPending (((((q.register k).2.trigger k v).2).register k).2)
      (((((q.register k).2.trigger k v).2).register k).1) = true ∧
    q.trigger k' v = (false, q) := by
  obtain ⟨hq, hr, hnd⟩ := hWF
  have hlast : q.trigger k' v = (false, q) := by
    unfold FuturesQueue.trigger
    rw [hk']
  cases hqk : q.queue.lookup k with
  | none =>
    have hstep1 : q.register k =
        (q.counter,
         { q with queue := (k, q.counter) :: q.queue, counter := q.counter + 1 }) := by
      unfold FuturesQueue.register
      rw [hqk]
    rw [hstep1]
    have hlk : ((k, q.counter) :: q.queue).lookup k = some q.counter := by
      simp [List.lookup]
    have hstep2 :
        (FuturesQueue.mk ((k, q.counter) :: q.queue) (q.counter + 1) q.resolved).trigger k v =
        (true,
         FuturesQueue.mk (((k, q.counter) :: q.queue).eraseP (fun e => e.1 == k))
           (q.counter + 1) ((q.counter, v) :: q.resolved)) := by
      unfold FuturesQueue.trigger
      rw [hlk]
    have herase : ((k, q.counter) :: q.queue).eraseP (fun e => e.1 == k) = q.queue := by
      simp [List.eraseP_cons]
    rw [hstep2, herase]
    have hstep3 :
        (FuturesQueue.mk q.queue (q.counter + 1) ((q.counter, v) :: q.resolved)).register k =
        (q.counter + 1,
         FuturesQueue.mk ((k, q.counter + 1) :: q.queue) (q.counter + 2)
           ((q.counter, v) :: q.resolved)) := by
      unfold FuturesQueue.register
      rw [hqk]
    rw [hstep3]
    refine ⟨rfl, ?_, ?_, ?_, hlast⟩
    · simp [FuturesQueue.resolvedValue, List.lookup]
    · omega
    · unfold FuturesQueue.isPending
      have h1 : ((k, q.counter + 1) :: q.queue).any (fun e => e.2 == q.counter + 1) = true := by
        simp [List.any_cons]
      have h2 : List.lookup (q.counter + 1) ((q.counter, v) :: q.resolved) = none := by
        have hne : (q.counter + 1 == q.counter) = false := by
          simp only [beq_eq_false_iff_ne, ne_eq]
          omega
        simp only [List.lookup, hne]
        exact lookup_none_of_lt q.resolved q.counter (q.counter + 1) hr (by omega)
      rw [h1, h2]
      rfl
  | some fid =>
    have hfid : fid < q.counter := hq (k, fid) (lookup_some_mem q.queue k fid hqk)
    have hstep1 : q.register k = (fid, q) := by
      unfold FuturesQueue.register
      rw [hqk]
    rw [hstep1]
    have hstep2 : q.trigger k v =
        (true,
         FuturesQueue.mk (q.queue.eraseP (fun e => e.1 == k)) q.counter
           ((fid, v) :: q.resolved)) := by
      unfold FuturesQueue.trigger
      rw [hqk]
    rw [hstep2]
    have hlk2 : (q.queue.eraseP (fun e => e.1 == k)).lookup k = none :=
      lookup_eraseP_self q.queue k hnd
    have hstep3 :
        (FuturesQueue.mk (q.queue.eraseP (fun e => e.1 == k)) q.counter
           ((fid, v) :: q.resolved)).register k =
        (q.counter,
         FuturesQueue.mk ((k, q.counter) :: q.queue.eraseP (fun e => e.1 == k))
           (q.counter + 1) ((fid, v) :: q.resolved)) := by
      unfold FuturesQueue.register
      rw [hlk2]
    rw [hstep3]
    refine ⟨rfl, ?_, ?_, ?_, hlast⟩
    · simp [FuturesQueue.resolvedValue, List.lookup]
    · omega
    · unfold FuturesQueue.isPending
      have h1 : ((k, q.counter) :: q.queue.eraseP (fun e => e.1 == k)).any
          (fun e => e.2 == q.counter) = true := by
        simp [List.any_cons]
      have h2 : List.lookup q.counter ((fid, v) :: q.resolved) = none := by
        have hne : (q.counter == fid) = false := by
          simp only [beq_eq_false_iff_ne, ne_eq]
          omega
        simp only [List.lookup, hne]
        exact lookup_none_of_lt q.resolved q.counter q.counter hr (Nat.le_refl _)
      rw [h1, h2]
      rfl

/-- C1 witness: the contract applied to the empty correlator. -/
theorem correlator_register_trigger_contract_witness :
    ((((FuturesQueue.init Nat).register "a").2.trigger "a" 7).1 = true ∧
    FuturesQueue.resolvedValue ((((FuturesQueue.init Nat).register "a").2.trigger "a" 7).2)
      ((FuturesQueue.init Nat).register "a").1 = some 7 ∧
    (((((FuturesQueue.init Nat).register "a").2.trigger "a" 7).2).register "a").1 ≠
      ((FuturesQueue.init Nat).register "a").1 ∧
    FuturesQueue.isPending
      ((((((FuturesQueue.init Nat).register "a").2.trigger "a" 7).2).register "a").2)
      ((((((FuturesQueue.init Nat).register "a").2.trigger "a" 7).2).register "a").1) = true ∧
    (FuturesQueue.init Nat).trigger "b" 7 = (false, FuturesQueue.init Nat)) :=
  correlator_register_trigger_contract (FuturesQueue.init Nat) "a" "b" 7
    (by constructor <;> simp [FuturesQueue.init]) (by decide)

/-- Looking a key up after a Python-dict insertion sees the new binding for
that key and is otherwise unchanged. -/
theorem lookup_pyDictInsert {β : Type} (m : List (Nat × β)) (k h : Nat) (v : β) :
    (pyDictInsert m k v).lookup h = if h = k then some v else m.lookup h := by
  induction m with
  | nil =>
    by_cases hk : h = k
    · subst hk
      simp [pyDictInsert, List.lookup]
    · have hne : (h == k) = false := by
        simp only [beq_eq_false_iff_ne, ne_eq]
        exact hk
      simp [pyDictInsert, List.lookup, hne, hk]
  | cons a t ih =>
    obtain ⟨k', v'⟩ := a
    by_cases hk' : k' = k
    · subst hk'
      simp only [pyDictInsert, if_pos rfl]
      by_cases hh : h = k'
      · subst hh
        simp [List.lookup]
      · have hne : (h == k') = false := by
          simp only [beq_eq_false_iff_ne, ne_eq]
          exact hh
        simp [List.lookup, hne, hh]
    · simp only [pyDictInsert, if_neg hk']
      by_cases hh : h = k'
      · have hhk : ¬h = k := by
          rw [hh]
          exact hk'
        have hb : (h == k') = true := by
          simp [hh]
        rw [if_neg hhk]
        simp only [List.lookup, hb]
      · have hne : (h == k') = false := by
          simp only [beq_eq_false_iff_ne, ne_eq]
          exact hh
        simp only [List.lookup, hne, ih]

/-- Folding Python-dict insertions over a parameter list: the final binding
for a header is the last parameter carrying it, falling back to the initial
dict. -/
theorem lookup_update_foldl (l : List EngineParameter)
    (m : List (Nat × EngineParameter)) (h : Nat) :
    (l.foldl (fun m p => pyDictInsert m p.notification_header p) m).lookup h =
      match lastMatch l h with
      | some p => some p
      | none => m.lookup h := by
  induction l generalizing m with
  | nil => simp [lastMatch]
  | cons p t ih =>
    simp only [List.foldl_cons]
    rw [ih]
    simp only [lastMatch, List.reverse_cons, List.find?_append]
    cases hf : (t.reverse.find? fun q => q.notification_header == h) with
    | some q => simp [Option.or]
    | none =>
      by_cases hph : p.notification_header = h
      · have hb : (p.notification_header == h) = true := by
          simp [hph]
        have hph' : h = p.notification_header := hph.symm
        simp [Option.or, List.find?, hb, lookup_pyDictInsert, if_pos hph']
      · have hb : (p.notification_header == h) = false := by
          simp only [beq_eq_false_iff_ne, ne_eq]
          exact hph
        have hph' : ¬h = p.notification_header := fun c => hph c.symm
        simp [Option.or, List.find?, hb, lookup_pyDictInsert, if_neg hph']

/-- C10: after `update_engine_params`, the dispatch map binds every header
occurring in the list — including headers of disabled parameters, so key 0
may be present — the parameter kept for a duplicated header is the one
occurring later in the list, and `notification_handler`'s choice of
parameter for an incoming payload is exactly that map lookup on the
payload's first two big-endian bytes: the `enabled` flag is never consulted
in either place. -/
theorem dispatch_map_contract (params : List EngineParameter)
    (p : EngineParameter) (h : Nat) (data : List Nat) (hp : p ∈ params) :
    pyDictGet (update_engine_params params) h = lastMatch params h ∧
    (pyDictGet (update_engine_params params) p.notification_header).isSome = true ∧
    selectParam (update_engine_params params) data =
      lastMatch params (bigFromBytes (data.take 2)) := by
  have key : ∀ hh, pyDictGet (update_engine_params params) hh = lastMatch params hh := by
    intro hh
    unfold pyDictGet update_engine_params
    rw [lookup_update_foldl]
    cases lastMatch params hh <;> simp
  refine ⟨key h, ?_, key _⟩
  rw [key]
  exact (List.find?_isSome).mpr ⟨p, List.mem_reverse.mpr hp, by simp⟩

/-- C10 witness: three parameters, two sharing header 256 (the second is
kept) and one disabled with header 0 (still present as key 0), all with
`enabled := false`. -/
theorem dispatch_map_contract_witness :
    (⟨3, 0, false, 0, .BATTERY_VOLTAGE⟩ : EngineParameter) ∈
      [(⟨1, 256, false, 0, .ENGINE_RPM⟩ : EngineParameter),
       ⟨2, 256, false, 0, .COOLANT_TEMPERATURE⟩,
       ⟨3, 0, false, 0, .BATTERY_VOLTAGE⟩] ∧
    (pyDictGet (update_engine_params
        [⟨1, 256, false, 0, .ENGINE_RPM⟩, ⟨2, 256, false, 0, .COOLANT_TEMPERATURE⟩,
         ⟨3, 0, false, 0, .BATTERY_VOLTAGE⟩]) 256 =
      lastMatch
        [⟨1, 256, false, 0, .ENGINE_RPM⟩, ⟨2, 256, false, 0, .COOLANT_TEMPERATURE⟩,
         ⟨3, 0, false, 0, .BATTERY_VOLTAGE⟩] 256 ∧
    (pyDictGet (update_engine_params
        [⟨1, 256, false, 0, .ENGINE_RPM⟩, ⟨2, 256, false, 0, .COOLANT_TEMPERATURE⟩,
         ⟨3, 0, false, 0, .BATTERY_VOLTAGE⟩])
        (⟨3, 0, false, 0, .BATTERY_VOLTAGE⟩ : EngineParameter).notification_header).isSome =
      true ∧
    selectParam (update_engine_params
        [⟨1, 256, false, 0, .ENGINE_RPM⟩, ⟨2, 256, false, 0, .COOLANT_TEMPERATURE⟩,
         ⟨3, 0, false, 0, .BATTERY_VOLTAGE⟩]) [1, 0] =
      lastMatch
        [⟨1, 256, false, 0, .ENGINE_RPM⟩, ⟨2, 256, false, 0, .COOLANT_TEMPERATURE⟩,
         ⟨3, 0, false, 0, .BATTERY_VOLTAGE⟩] (bigFromBytes (([1, 0] : List Nat).take 2))) :=
  ⟨by decide,
   dispatch_map_contract
     [⟨1, 256, false, 0, .ENGINE_RPM⟩, ⟨2, 256, false, 0, .COOLANT_TEMPERATURE⟩,
      ⟨3, 0, false, 0, .BATTERY_VOLTAGE⟩]
     ⟨3, 0, false, 0, .BATTERY_VOLTAGE⟩ 256 [1, 0] (by decide)⟩

/-- C5: `safe_eval_formula("value / 60.0", 120)` returns 120, not the 2.0 the
specification (and the repository's own test suite) expects: the safety
pattern `^[0-9+\-*/.() \t\n]|(value|abs|min|max|round|pow|__builtins__)+$`
accepts a string only when its first character is in the bracketed class or
the whole string is a run of allowed identifiers, so a formula beginning
with `value` is rejected as "unsafe" and the input is returned unchanged.
`"(value + 10) * 2"` starts with `(`, passes the gate, and evaluates to 30
as the specification states. -/
theorem safe_eval_formula_on_claim_inputs :
    safe_eval_formula (some "value / 60.0") 120 = 120 ∧
    safe_eval_formula (some "(value + 10) * 2") 5 = 30 :=
  ⟨by decide, by decide!⟩

/-- C6: applying the default conversion to a parameter type outside the six
recognized ones raises `AttributeError` instead of applying the identity —
the `case` pattern naming the nonexistent `EngineParameterType.WATER_PRESSURE`
is evaluated for every such type — in the library lookup itself, in the
publisher's `convert_value` path, and in the device session's
`_convert_and_publish_data` path; a recognized type (oil pressure) still
converts normally. -/
theorem conversion_unrecognized_type_raises :
    Conversion.applyConversion EngineParameterType.UNKNOWN_3 100 =
      .error .attributeError ∧
    convert_value ⟨0x0003, 0x0100, true, 0, .UNKNOWN_3⟩ 100 =
      .error .attributeError ∧
    convertForPublish ⟨0x0009, 0x0200, true, 0, .UNKNOWN_9⟩ 42 =
      .error .attributeError ∧
    Conversion.applyConversion EngineParameterType.OIL_PRESSURE 125 = .ok 100 :=
  ⟨by decide, by decide, by decide, by decide!⟩

end VVM
